import Mathlib

/-!
# Verification of the Wacohtech WDF-6M200 force/torque sensor driver

A shallow embedding of `src/lib.rs` (crate `wacohtech-ft-sensor-rs`).

Modelling conventions:
* `f64` values are idealised as exact rationals (`ℚ`); the dimension tags
  (`Newton`, `NewtonMeter`, `PerNewton`, …) of the `dimensioned` crate are
  type-level only and carry no runtime content, so they are erased.
* Bytes are `Nat` (values < 256 on real frames).
* The serial port (`Box<dyn serialport::SerialPort>`) is modelled as two
  streams of outcomes, one for `read` calls and one for `write` calls,
  each consumed in order; an `io::Error` is a `none`/`ioErr` outcome.
* Rust panics (the `assert!` in `calibrate`) are modelled by an `Option`
  result: `none` means the call panicked.
-/

namespace WacohFt

/-- `pair_macro::Triplet`: exactly three values of one type. -/
structure Triplet (α : Type) where
  x : α
  y : α
  z : α
  deriving DecidableEq, Repr

namespace Triplet

/-- `Triplet::new(x, y, z)`. -/
def new (x y z : α) : Triplet α := ⟨x, y, z⟩

/-- `Triplet::from_cloned(v)`: broadcast one value to all three axes. -/
def from_cloned (v : α) : Triplet α := ⟨v, v, v⟩

/-- `Triplet::map`: apply `f` to each entry. -/
def map (t : Triplet α) (f : α → β) : Triplet β :=
  ⟨f t.x, f t.y, f t.z⟩

/-- `Triplet::map_entrywise`: combine two triplets entrywise. -/
def map_entrywise (t : Triplet α) (u : Triplet β) (f : α → β → γ) : Triplet γ :=
  ⟨f t.x u.x, f t.y u.y, f t.z u.z⟩

/-- Componentwise addition (the `dimensioned` quantities add componentwise). -/
instance [Add α] : Add (Triplet α) :=
  ⟨fun a b => ⟨a.x + b.x, a.y + b.y, a.z + b.z⟩⟩

/-- Componentwise subtraction. -/
instance [Sub α] : Sub (Triplet α) :=
  ⟨fun a b => ⟨a.x - b.x, a.y - b.y, a.z - b.z⟩⟩

theorem add_components [Add α] (a b : Triplet α) :
    a + b = ⟨a.x + b.x, a.y + b.y, a.z + b.z⟩ := rfl

theorem sub_components [Sub α] (a b : Triplet α) :
    a - b = ⟨a.x - b.x, a.y - b.y, a.z - b.z⟩ := rfl

end Triplet

/-- `Wrench`: a force triplet plus a torque triplet
(`Triplet<Newton<f64>>` and `Triplet<NewtonMeter<f64>>`, dimensions erased). -/
structure Wrench where
  force : Triplet ℚ
  torque : Triplet ℚ
  deriving DecidableEq, Repr

namespace Wrench

/-- `Wrench::new`. -/
def new (force torque : Triplet ℚ) : Wrench := ⟨force, torque⟩

/-- `Wrench::zeroed()`: force and torque all zero. -/
def zeroed : Wrench :=
  { force := (Triplet.from_cloned (0 : ℚ)).map id
    torque := (Triplet.from_cloned (0 : ℚ)).map id }

/-- `impl Add for Wrench`. -/
instance : Add Wrench :=
  ⟨fun a b => { force := a.force + b.force, torque := a.torque + b.torque }⟩

/-- `impl Sub for Wrench`. -/
instance : Sub Wrench :=
  ⟨fun a b => { force := a.force - b.force, torque := a.torque - b.torque }⟩

theorem add_pairs (a b : Wrench) :
    a + b = { force := a.force + b.force, torque := a.torque + b.torque } := rfl

theorem sub_pairs (a b : Wrench) :
    a - b = { force := a.force - b.force, torque := a.torque - b.torque } := rfl

end Wrench

/-- `SensorError` (the payloads of the wrapped library errors are erased). -/
inductive SensorError where
  | sensorNotFound
  | serialPortOpen
  | read (desired actual : Nat)
  | write (desired actual : Nat)
  | io
  | utf8
  | invalidTextLength
  | parseInt
  deriving DecidableEq, Repr

/-- `AXIS_DATUM_LENGTH = 4`. -/
def AXIS_DATUM_LENGTH : Nat := 4
/-- `AXIS_DATA_START_INDEX = 1`. -/
def AXIS_DATA_START_INDEX : Nat := 1
/-- `AXIS_COUNT = 6`. -/
def AXIS_COUNT : Nat := 6
/-- `NEWLINE_BYTES = 2`. -/
def NEWLINE_BYTES : Nat := 2
/-- `RESPONSE_BYTES = 1 + 4*6 + 2 = 27`. -/
def RESPONSE_BYTES : Nat :=
  AXIS_DATA_START_INDEX + AXIS_DATUM_LENGTH * AXIS_COUNT + NEWLINE_BYTES

/-- `force_sensitivity()`: `Triplet::new(24.9, 24.6, 24.5)` as exact rationals. -/
def force_sensitivity : Triplet ℚ :=
  Triplet.new (249/10) (246/10) (245/10)

/-- `torque_sensitivity()`: `Triplet::new(1664.7, 1639.7, 1638.0)` as exact rationals. -/
def torque_sensitivity : Triplet ℚ :=
  Triplet.new (16647/10) (16397/10) (16380/10)

/-! ## UTF-8 (model of `std::str::from_utf8` and `str` boundary logic) -/

/-- A UTF-8 continuation byte: `0x80 ≤ b ≤ 0xBF`. -/
def isCont (b : Nat) : Bool := 0x80 ≤ b && b ≤ 0xBF

/-- One step of the UTF-8 validation automaton of `std::str::from_utf8`:
`none` is the reject state; `some (pending, lo, hi)` means `pending`
continuation bytes are still required, the next of which must lie in
`[lo, hi]` (later ones in the standard range `[0x80, 0xBF]`). The
lead-byte table is exactly the one used by `std::str::from_utf8`; it
excludes overlong forms, surrogates, and values beyond U+10FFFF. -/
def utf8Step : Option (Nat × Nat × Nat) → Nat → Option (Nat × Nat × Nat)
  | none, _ => none
  | some (0, _, _), b =>
    if b ≤ 0x7F then some (0, 0x80, 0xBF)
    else if 0xC2 ≤ b && b ≤ 0xDF then some (1, 0x80, 0xBF)
    else if b = 0xE0 then some (2, 0xA0, 0xBF)
    else if (0xE1 ≤ b && b ≤ 0xEC) || b = 0xEE || b = 0xEF then
      some (2, 0x80, 0xBF)
    else if b = 0xED then some (2, 0x80, 0x9F)
    else if b = 0xF0 then some (3, 0x90, 0xBF)
    else if 0xF1 ≤ b && b ≤ 0xF3 then some (3, 0x80, 0xBF)
    else if b = 0xF4 then some (3, 0x80, 0x8F)
    else none
  | some (pending + 1, lo, hi), b =>
    if lo ≤ b && b ≤ hi then some (pending, 0x80, 0xBF) else none

/-- Validity of a byte sequence as UTF-8 (the acceptance condition of
`std::str::from_utf8`): run the automaton over all bytes and require that
no byte was rejected and no continuation bytes are still pending. -/
def utf8Valid (l : List Nat) : Bool :=
  match l.foldl utf8Step (some (0, 0x80, 0xBF)) with
  | some (0, _, _) => true
  | _ => false

/-- `str::is_char_boundary(i)`: `i == 0`, or `i == len`, or the byte at `i`
is not a continuation byte; positions beyond the end are not boundaries. -/
def isCharBoundary (bytes : List Nat) (i : Nat) : Bool :=
  if i = 0 then true
  else if i = bytes.length then true
  else if h : i < bytes.length then !isCont (bytes.get ⟨i, h⟩)
  else false

/-- `text.get(start..stop)` on a `str` whose bytes are `bytes`: `Some` slice
iff `start ≤ stop` and both ends are char boundaries (which implies
`stop ≤ len`), else `None`. -/
def strGet (bytes : List Nat) (start stop : Nat) : Option (List Nat) :=
  if start ≤ stop && isCharBoundary bytes start && isCharBoundary bytes stop then
    some ((bytes.drop start).take (stop - start))
  else
    none

/-! ## `u16::from_str_radix(s, 16)` -/

/-- `char::to_digit(16)` on a byte: hex digit value, if any. -/
def hexDigit? (b : Nat) : Option Nat :=
  if 48 ≤ b && b ≤ 57 then some (b - 48)          -- '0'..'9'
  else if 97 ≤ b && b ≤ 102 then some (b - 87)    -- 'a'..'f'
  else if 65 ≤ b && b ≤ 70 then some (b - 55)     -- 'A'..'F'
  else none

/-- Accumulating digit loop of `from_str_radix` with `u16` checked
arithmetic: fails on a non-digit or on overflow past `u16::MAX`. -/
def hexAccum : List Nat → Nat → Option Nat
  | [], acc => some acc
  | b :: rest, acc =>
    match hexDigit? b with
    | none => none
    | some d =>
      if acc * 16 + d ≤ 65535 then hexAccum rest (acc * 16 + d)
      else none

/-- `u16::from_str_radix(s, 16)`: rejects the empty string; accepts one
leading `'+'` (but not a bare `"+"`); `'-'` is not stripped for an
unsigned target and fails as a non-digit; then the checked digit loop. -/
def fromStrRadix16 (s : List Nat) : Option Nat :=
  match s with
  | [] => none
  | b :: rest =>
    if b = 43 then          -- '+'
      match rest with
      | [] => none
      | _ => hexAccum rest 0
    else
      hexAccum (b :: rest) 0

/-! ## Frame decoding: `Wdf6m200::convert_reception_to_raw_wrench` -/

/-- One iteration of the extraction loop: slice the text at
`[AXIS_DATA_START_INDEX + i*AXIS_DATUM_LENGTH, 1 + (i+1)*AXIS_DATUM_LENGTH)`
and parse the slice as base-16. -/
def axisField (text : List Nat) (i : Nat) : Except SensorError Nat :=
  match strGet text (AXIS_DATA_START_INDEX + i * AXIS_DATUM_LENGTH)
      (1 + (i + 1) * AXIS_DATUM_LENGTH) with
  | none => Except.error SensorError.invalidTextLength
  | some axisText =>
    match fromStrRadix16 axisText with
    | none => Except.error SensorError.parseInt
    | some digital => Except.ok digital

/-- The `for i in 0..n` loop of the decoder: axes `0, 1, …, n-1` in order,
stopping at the first error. -/
def readAxesLoop (text : List Nat) : Nat → Except SensorError (List Nat)
  | 0 => Except.ok []
  | n + 1 =>
    match readAxesLoop text n with
    | Except.error e => Except.error e
    | Except.ok ds =>
      match axisField text n with
      | Except.error e => Except.error e
      | Except.ok d => Except.ok (ds ++ [d])

/-- `Wdf6m200::convert_reception_to_raw_wrench`: interpret the frame as
UTF-8 text, extract the six hexadecimal fields, then scale by the
sensitivities (digital / sensitivity, entrywise). -/
def convert_reception_to_raw_wrench (reception : List Nat) :
    Except SensorError Wrench :=
  if utf8Valid reception then
    match readAxesLoop reception AXIS_COUNT with
    | Except.error e => Except.error e
    | Except.ok digitals =>
      let dig := fun i => digitals.getD i 0
      let force :=
        ((Triplet.new (dig 0) (dig 1) (dig 2)).map (fun i => (i : ℚ))).map_entrywise
          force_sensitivity (fun d s => d / s)
      let torque :=
        ((Triplet.new (dig 3) (dig 4) (dig 5)).map (fun i => (i : ℚ))).map_entrywise
          torque_sensitivity (fun d s => d / s)
      Except.ok (Wrench.new force torque)
  else
    Except.error SensorError.utf8

/-! ## The serial-port transport model and the sensor session -/

/-- Outcome of one `serial_port.read(&mut buf)` call on a 27-byte buffer:
`none` models an `io::Error`; `some (c, buf)` models `Ok(c)` with `buf`
being the buffer contents after the call. -/
abbrev ReadOutcome := Option (Nat × List Nat)

/-- Outcome of one `serial_port.write(&data)` call: `none` models an
`io::Error`; `some c` models `Ok(c)` bytes written. -/
abbrev WriteOutcome := Option Nat

/-- The `Box<dyn serialport::SerialPort>` handle: two streams of outcomes
with cursors recording how many reads and writes have happened. -/
structure Transport where
  readFn : Nat → ReadOutcome
  writeFn : Nat → WriteOutcome
  readCount : Nat
  writeCount : Nat

/-- `Wdf6m200`: the transport handle, the last decoded raw wrench, and the
calibration offset. -/
structure Wdf6m200 where
  serial_port : Transport
  raw_wrench : Wrench
  offset : Wrench

namespace Wdf6m200

/-- `Wdf6m200::last_measurement`: `raw_wrench - offset`, no I/O. -/
def last_measurement (s : Wdf6m200) : Wrench :=
  s.raw_wrench - s.offset

/-- `Wdf6m200::request_next_data`: write the single byte `'R'`; `Ok` iff
exactly 1 byte was written, `SensorError::Write(1, c)` otherwise,
`SensorError::Io` on an `io::Error`. -/
def request_next_data (s : Wdf6m200) : Except SensorError Unit × Wdf6m200 :=
  let s' := { s with serial_port :=
    { s.serial_port with writeCount := s.serial_port.writeCount + 1 } }
  match s.serial_port.writeFn s.serial_port.writeCount with
  | none => (Except.error SensorError.io, s')
  | some write_count =>
    if write_count = 1 then (Except.ok (), s')
    else (Except.error (SensorError.write 1 write_count), s')

/-- `Wdf6m200::read_bytes`: read into a `RESPONSE_BYTES` buffer; `Ok(buf)`
iff exactly `RESPONSE_BYTES` bytes arrived, `SensorError::Read` otherwise,
`SensorError::Io` on an `io::Error`. -/
def read_bytes (s : Wdf6m200) : Except SensorError (List Nat) × Wdf6m200 :=
  let s' := { s with serial_port :=
    { s.serial_port with readCount := s.serial_port.readCount + 1 } }
  match s.serial_port.readFn s.serial_port.readCount with
  | none => (Except.error SensorError.io, s')
  | some (read_count, buf) =>
    if read_count = RESPONSE_BYTES then (Except.ok buf, s')
    else (Except.error (SensorError.read RESPONSE_BYTES read_count), s')

/-- `Wdf6m200::update`: read a frame, decode it into `raw_wrench`
(propagating any read/decode error before the assignment), then request
the next frame (propagating any write error after the assignment). -/
def update (s : Wdf6m200) : Except SensorError Unit × Wdf6m200 :=
  match read_bytes s with
  | (Except.error e, s1) => (Except.error e, s1)
  | (Except.ok buf, s1) =>
    match convert_reception_to_raw_wrench buf with
    | Except.error e => (Except.error e, s1)
    | Except.ok w =>
      let s2 := { s1 with raw_wrench := w }
      match request_next_data s2 with
      | (Except.error e, s3) => (Except.error e, s3)
      | (Except.ok _, s3) => (Except.ok (), s3)

/-- The collection loop of `calibrate`: `measurement_times` iterations,
each calling `update` (discarding its result) and pushing the session's
current `raw_wrench`; the sleep has no observable effect in the model.
Returns the final session and the pushed wrenches in push order. -/
def calibLoop (s : Wdf6m200) : Nat → Wdf6m200 × List Wrench
  | 0 => (s, [])
  | n + 1 =>
    let s1 := (update s).2
    let (s2, ws) := calibLoop s1 n
    (s2, s1.raw_wrench :: ws)

set_option linter.unusedVariables false in
/-- `Wdf6m200::calibrate`: `assert!(measurement_times > 0)` (modelled by
`none` = panic), collect `measurement_times` raw wrenches, average them
(fold from `Wrench::zeroed`, each axis divided by the number of recorded
wrenches), and store the average as the new offset. `measurement_period`
only controls the sleep and is ignored by the model. -/
def calibrate (s : Wdf6m200) (measurement_period : Nat)
    (measurement_times : Nat) : Option Wdf6m200 :=
  if measurement_times > 0 then
    let (s', raw_wrenches) := calibLoop s measurement_times
    let raw_wrench_sum := raw_wrenches.foldl (· + ·) Wrench.zeroed
    let raw_force_average :=
      raw_wrench_sum.force.map (fun e => e / (raw_wrenches.length : ℚ))
    let raw_torque_average :=
      raw_wrench_sum.torque.map (fun e => e / (raw_wrenches.length : ℚ))
    some { s' with offset := Wrench.new raw_force_average raw_torque_average }
  else
    none

/-- The read-and-decode prefix of `update`: the freshly decoded wrench when
both the read and the decode succeed, `none` otherwise. -/
def decodeResult (s : Wdf6m200) : Option Wrench :=
  match read_bytes s with
  | (Except.error _, _) => none
  | (Except.ok buf, _) =>
    match convert_reception_to_raw_wrench buf with
    | Except.error _ => none
    | Except.ok w => some w

/-- Iterated `update`, keeping only the session state. -/
def iterUpdate (s : Wdf6m200) : Nat → Wdf6m200
  | 0 => s
  | n + 1 => (update (iterUpdate s n)).2

end Wdf6m200

/-! ## Auxiliary definitions used to state the claims -/

/-- A byte is an ASCII hexadecimal digit (`0-9`, `a-f`, `A-F`). -/
def isHexDigit (b : Nat) : Bool := (hexDigit? b).isSome

/-- The base-16 parse of the `i`-th axis field of a frame, read directly at
its fixed byte offset `1 + 4*i` (length 4). -/
def fieldDigit (f : List Nat) (i : Nat) : Option Nat :=
  fromStrRadix16 ((f.drop (1 + 4 * i)).take 4)

/-- The elementwise average of a list of wrenches over a sample count `n`:
fold from `Wrench.zeroed`, each axis divided by `n`. -/
def avgWrench (ws : List Wrench) (n : Nat) : Wrench :=
  Wrench.new
    ((ws.foldl (· + ·) Wrench.zeroed).force.map (fun e => e / (n : ℚ)))
    ((ws.foldl (· + ·) Wrench.zeroed).torque.map (fun e => e / (n : ℚ)))

/-! ## Concrete frames, wrenches and sessions for witnesses and
counterexamples (byte values: `'X' = 88`, `'0' = 48`, `'6' = 54`,
`'4' = 52`, `'C' = 67`, `'8' = 56`, `'+' = 43`, `'1' = 49`, `'2' = 50`,
`'3' = 51`, `'G' = 71`, `CR = 13`, `LF = 10`). -/

/-- `"X00640064006400C800C800C8\r\n"`: digital readings
`[100, 100, 100, 200, 200, 200]`. -/
def goodFrame : List Nat :=
  [88, 48, 48, 54, 52, 48, 48, 54, 52, 48, 48, 54, 52,
   48, 48, 67, 56, 48, 48, 67, 56, 48, 48, 67, 56, 13, 10]

/-- The same hexadecimal fields as `goodFrame` but a different record
marker (`'Y' = 89`) and a different trailer (`'A' 'B'`). -/
def goodFrameAlt : List Nat :=
  [89, 48, 48, 54, 52, 48, 48, 54, 52, 48, 48, 54, 52,
   48, 48, 67, 56, 48, 48, 67, 56, 48, 48, 67, 56, 65, 66]

/-- The decode of `goodFrame`: `(100, 100, 100, 200, 200, 200)` divided
axiswise by the sensitivities. -/
def goodWrench : Wrench :=
  Wrench.new
    (Triplet.new (1000/249) (500/123) (200/49))
    (Triplet.new (2000/16647) (2000/16397) (100/819))

/-- A 27-byte frame that is valid UTF-8 but whose bytes 4–5 form the
two-byte character U+00E9 (`0xC3 0xA9`), so byte offset 5 is not a char
boundary. -/
def boundaryFrame : List Nat :=
  [88, 48, 48, 48, 0xC3, 0xA9, 48, 48, 48, 48, 48, 48, 48,
   48, 48, 48, 48, 48, 48, 48, 48, 48, 48, 48, 48, 13, 10]

/-- A 27-byte ASCII frame whose first field is `"+123"`. -/
def plusFrame : List Nat :=
  [88, 43, 49, 50, 51, 48, 48, 48, 48, 48, 48, 48, 48,
   48, 48, 48, 48, 48, 48, 48, 48, 48, 48, 48, 48, 13, 10]

/-- The decode of `plusFrame`: first field parses to `0x123 = 291`. -/
def plusWrench : Wrench :=
  Wrench.new (Triplet.new (970/83) 0 0) (Triplet.new 0 0 0)

/-- A 27-byte ASCII frame whose first field is `"GGGG"` (invalid hex). -/
def gFrame : List Nat :=
  [88, 71, 71, 71, 71, 48, 48, 48, 48, 48, 48, 48, 48,
   48, 48, 48, 48, 48, 48, 48, 48, 48, 48, 48, 48, 13, 10]

/-- A 27-byte frame starting with `0xFF`, which is never valid UTF-8. -/
def nonUtf8Frame : List Nat :=
  [255, 48, 48, 48, 48, 48, 48, 48, 48, 48, 48, 48, 48,
   48, 48, 48, 48, 48, 48, 48, 48, 48, 48, 48, 48, 13, 10]

/-- A session whose transport always delivers `goodFrame` but whose every
`write` call reports 0 bytes written. -/
def sensorWriteFail : Wdf6m200 :=
  { serial_port :=
      { readFn := fun _ => some (RESPONSE_BYTES, goodFrame)
        writeFn := fun _ => some 0
        readCount := 0
        writeCount := 0 }
    raw_wrench := Wrench.zeroed
    offset := Wrench.zeroed }

/-- A session whose transport fails every `read` call with an I/O error. -/
def sensorReadFail : Wdf6m200 :=
  { serial_port :=
      { readFn := fun _ => none
        writeFn := fun _ => some 1
        readCount := 0
        writeCount := 0 }
    raw_wrench := Wrench.zeroed
    offset := Wrench.zeroed }

/-- A session whose transport always delivers `goodFrame` and accepts
every poll command. -/
def sensorGood : Wdf6m200 :=
  { serial_port :=
      { readFn := fun _ => some (RESPONSE_BYTES, goodFrame)
        writeFn := fun _ => some 1
        readCount := 0
        writeCount := 0 }
    raw_wrench := Wrench.zeroed
    offset := Wrench.zeroed }

/-! ## Helper lemmas about the session operations -/

namespace Wdf6m200

theorem read_bytes_state (s : Wdf6m200) :
    (read_bytes s).2 =
      { s with serial_port :=
          { s.serial_port with readCount := s.serial_port.readCount + 1 } } := by
  unfold read_bytes
  rcases s.serial_port.readFn s.serial_port.readCount with _ | ⟨c, buf⟩
  · rfl
  · dsimp only
    split <;> rfl

theorem request_next_data_state (s : Wdf6m200) :
    (request_next_data s).2 =
      { s with serial_port :=
          { s.serial_port with writeCount := s.serial_port.writeCount + 1 } } := by
  unfold request_next_data
  rcases s.serial_port.writeFn s.serial_port.writeCount with _ | c
  · rfl
  · dsimp only
    split <;> rfl

/-- `update` replaces `raw_wrench` by the decoded wrench exactly when the
read and the decode both succeed, and leaves it untouched otherwise. -/
theorem update_raw (s : Wdf6m200) :
    (update s).2.raw_wrench = (decodeResult s).getD s.raw_wrench := by
  unfold update decodeResult
  rcases hrb : read_bytes s with ⟨r, s1⟩
  have hs1 : s1.raw_wrench = s.raw_wrench := by
    have := congrArg (fun p => (Prod.snd p).raw_wrench) hrb
    simpa [read_bytes_state] using this.symm
  rcases r with e | buf
  · simpa using hs1
  · rcases hc : convert_reception_to_raw_wrench buf with e | w
    · simpa [hc] using hs1
    · simp only [hc]
      rcases hrq : request_next_data { s1 with raw_wrench := w } with ⟨r2, s3⟩
      have hs3 : s3.raw_wrench = w := by
        have := congrArg (fun p => (Prod.snd p).raw_wrench) hrq
        simpa [request_next_data_state] using this.symm
      rcases r2 with e2 | u <;> simpa using hs3

/-- When the read or the decode fails, `update` returns an error and the
whole wrench state (both `raw_wrench` and `offset`) is untouched. -/
theorem update_error_of_decode_none (s : Wdf6m200)
    (h : decodeResult s = none) :
    ∃ e, (update s).1 = Except.error e ∧
      (update s).2.raw_wrench = s.raw_wrench := by
  unfold update
  unfold decodeResult at h
  rcases hrb : read_bytes s with ⟨r, s1⟩
  rw [hrb] at h
  have hs1 : s1.raw_wrench = s.raw_wrench := by
    have := congrArg (fun p => (Prod.snd p).raw_wrench) hrb
    simpa [read_bytes_state] using this.symm
  rcases r with e | buf
  · exact ⟨e, by simp, by simpa using hs1⟩
  · rcases hc : convert_reception_to_raw_wrench buf with e | w
    · exact ⟨e, by simp [hc], by simpa [hc] using hs1⟩
    · simp [hc] at h

/-- `update` never touches the calibration offset. -/
theorem update_offset (s : Wdf6m200) : (update s).2.offset = s.offset := by
  unfold update
  rcases hrb : read_bytes s with ⟨r, s1⟩
  have hs1 : s1.offset = s.offset := by
    have := congrArg (fun p => (Prod.snd p).offset) hrb
    simpa [read_bytes_state] using this.symm
  rcases r with e | buf
  · simpa using hs1
  · rcases hc : convert_reception_to_raw_wrench buf with e | w
    · simpa [hc] using hs1
    · simp only [hc]
      rcases hrq : request_next_data { s1 with raw_wrench := w } with ⟨r2, s3⟩
      have hs3 : s3.offset = s1.offset := by
        have := congrArg (fun p => (Prod.snd p).offset) hrq
        simpa [request_next_data_state] using this.symm
      rcases r2 with e2 | u <;> simpa using hs3.trans hs1

/-- `update` never changes the transport's outcome streams (only the
cursors move). -/
theorem update_transport_fns (s : Wdf6m200) :
    (update s).2.serial_port.readFn = s.serial_port.readFn ∧
    (update s).2.serial_port.writeFn = s.serial_port.writeFn := by
  unfold update
  rcases hrb : read_bytes s with ⟨r, s1⟩
  have hs1 : s1.serial_port.readFn = s.serial_port.readFn ∧
      s1.serial_port.writeFn = s.serial_port.writeFn := by
    have h1 := congrArg (fun p => (Prod.snd p).serial_port.readFn) hrb
    have h2 := congrArg (fun p => (Prod.snd p).serial_port.writeFn) hrb
    constructor
    · simpa [read_bytes_state] using h1.symm
    · simpa [read_bytes_state] using h2.symm
  rcases r with e | buf
  · simpa using hs1
  · rcases hc : convert_reception_to_raw_wrench buf with e | w
    · simpa [hc] using hs1
    · simp only [hc]
      rcases hrq : request_next_data { s1 with raw_wrench := w } with ⟨r2, s3⟩
      have hs3 : s3.serial_port.readFn = s1.serial_port.readFn ∧
          s3.serial_port.writeFn = s1.serial_port.writeFn := by
        have h1 := congrArg (fun p => (Prod.snd p).serial_port.readFn) hrq
        have h2 := congrArg (fun p => (Prod.snd p).serial_port.writeFn) hrq
        constructor
        · simpa [request_next_data_state] using h1.symm
        · simpa [request_next_data_state] using h2.symm
      rcases r2 with e2 | u <;> simpa using ⟨hs3.1.trans hs1.1, hs3.2.trans hs1.2⟩

/-- With a transport whose next read delivers a full frame decoding to
`R`, the read-and-decode prefix of `update` produces `R`. -/
theorem decodeResult_of_fixed (s : Wdf6m200) (fr : List Nat) (R : Wrench)
    (hread : s.serial_port.readFn s.serial_port.readCount =
      some (RESPONSE_BYTES, fr))
    (hfr : convert_reception_to_raw_wrench fr = Except.ok R) :
    decodeResult s = some R := by
  unfold decodeResult read_bytes
  simp [hread, hfr]

end Wdf6m200

/-! ## Concrete decoding facts -/

theorem readAxes_goodFrame :
    readAxesLoop goodFrame AXIS_COUNT =
      Except.ok [100, 100, 100, 200, 200, 200] := rfl

theorem convert_goodFrame :
    convert_reception_to_raw_wrench goodFrame = Except.ok goodWrench := by
  unfold convert_reception_to_raw_wrench
  rw [readAxes_goodFrame]
  simp only [show utf8Valid goodFrame = true from rfl, if_true, List.getD]
  simp only [Except.ok.injEq, goodWrench, Wrench.new, Triplet.new, Triplet.map,
    Triplet.map_entrywise, force_sensitivity, torque_sensitivity,
    List.getD, List.getElem?_cons_zero, List.getElem?_cons_succ,
    Option.getD_some, Wrench.mk.injEq, Triplet.mk.injEq]
  norm_num

/-! ## ASCII frames and field-slice bounds -/

theorem utf8Valid_of_ascii (l : List Nat) (h : ∀ b ∈ l, b < 128) :
    utf8Valid l = true := by
  have hfold : ∀ m : List Nat, (∀ b ∈ m, b < 128) →
      m.foldl utf8Step (some (0, 0x80, 0xBF)) = some (0, 0x80, 0xBF) := by
    intro m
    induction m with
    | nil => intro _; rfl
    | cons b rest ih =>
      intro hm
      have hb : b < 128 := hm b (List.mem_cons_self b rest)
      rw [List.foldl_cons,
        show utf8Step (some (0, 0x80, 0xBF)) b = some (0, 0x80, 0xBF) by
          unfold utf8Step
          dsimp only
          rw [if_pos (show b ≤ 127 by omega)]]
      exact ih (fun x hx => hm x (List.mem_cons_of_mem b hx))
  unfold utf8Valid
  rw [hfold l h]

theorem isCharBoundary_of_ascii (l : List Nat) (h : ∀ b ∈ l, b < 128)
    (i : Nat) (hi : i ≤ l.length) : isCharBoundary l i = true := by
  unfold isCharBoundary
  by_cases h0 : i = 0
  · rw [if_pos h0]
  · rw [if_neg h0]
    by_cases hl : i = l.length
    · rw [if_pos hl]
    · rw [if_neg hl]
      have hlt : i < l.length := by omega
      rw [dif_pos hlt]
      have hb : l.get ⟨i, hlt⟩ < 128 := h _ (l.get_mem i hlt)
      unfold isCont
      simp only [Bool.not_eq_true', Bool.and_eq_false_iff,
        decide_eq_false_iff_not, not_le]
      left
      omega

theorem strGet_ascii_some (l : List Nat) (h : ∀ b ∈ l, b < 128)
    (start stop : Nat) (h1 : start ≤ stop) (h2 : stop ≤ l.length) :
    strGet l start stop = some ((l.drop start).take (stop - start)) := by
  unfold strGet
  rw [if_pos]
  simp [h1, isCharBoundary_of_ascii l h start (le_trans h1 h2),
    isCharBoundary_of_ascii l h stop h2]

theorem axisField_ascii_ne_length_err (l : List Nat) (h : ∀ b ∈ l, b < 128)
    (hlen : l.length = 27) (i : Nat) (hi : i < 6) :
    axisField l i ≠ Except.error SensorError.invalidTextLength := by
  unfold axisField
  rw [strGet_ascii_some l h _ _
    (by simp only [AXIS_DATA_START_INDEX, AXIS_DATUM_LENGTH]; omega)
    (by simp only [AXIS_DATA_START_INDEX, AXIS_DATUM_LENGTH, hlen]; omega)]
  rcases hfs : fromStrRadix16
      ((l.drop (AXIS_DATA_START_INDEX + i * AXIS_DATUM_LENGTH)).take
        (1 + (i + 1) * AXIS_DATUM_LENGTH -
          (AXIS_DATA_START_INDEX + i * AXIS_DATUM_LENGTH))) with _ | d <;>
    simp [hfs]

theorem readAxesLoop_ascii_ne_length_err (l : List Nat) (h : ∀ b ∈ l, b < 128)
    (hlen : l.length = 27) (n : Nat) (hn : n ≤ 6) :
    readAxesLoop l n ≠ Except.error SensorError.invalidTextLength := by
  induction n with
  | zero => simp [readAxesLoop]
  | succ k ih =>
    rw [readAxesLoop]
    rcases hk : readAxesLoop l k with e | ds
    · intro hcontra
      exact ih (by omega) (hk.trans hcontra)
    · rcases hax : axisField l k with e | d
      · dsimp only
        intro hcontra
        have he : e = SensorError.invalidTextLength := by
          injection hcontra
        rw [he] at hax
        exact axisField_ascii_ne_length_err l h hlen k (by omega) hax
      · dsimp only
        simp

/-- C4 counterexample: `boundaryFrame` is a 27-byte frame of valid UTF-8
text, yet decoding fails with the invalid-field-length error, because byte
offset 5 falls inside the two-byte character `0xC3 0xA9` and the field
slice `1..5` is rejected as not char-aligned — not because any slice falls
outside the text's bounds. -/
theorem valid_text_frame_invalid_length_failure :
    boundaryFrame.length = RESPONSE_BYTES ∧
    utf8Valid boundaryFrame = true ∧
    convert_reception_to_raw_wrench boundaryFrame =
      Except.error SensorError.invalidTextLength :=
  ⟨rfl, rfl, rfl⟩

/-- C4 (amended): on every 27-byte frame of ASCII text, each of the six
fixed field slices lies within the text's bounds and on character
boundaries, so the decoder never fails with the invalid-field-length
error; on non-ASCII (multi-byte) valid text the error can also fire for a
field boundary falling inside a character. -/
theorem decoder_ascii_fields_in_bounds (f : List Nat)
    (hlen : f.length = 27) (hascii : ∀ b ∈ f, b < 128) :
    (∀ i, i < AXIS_COUNT →
      (strGet f (AXIS_DATA_START_INDEX + i * AXIS_DATUM_LENGTH)
        (1 + (i + 1) * AXIS_DATUM_LENGTH)).isSome = true) ∧
    convert_reception_to_raw_wrench f ≠
      Except.error SensorError.invalidTextLength := by
  constructor
  · intro i hi
    rw [strGet_ascii_some f hascii _ _
      (by simp only [AXIS_DATA_START_INDEX, AXIS_DATUM_LENGTH]; omega)
      (by simp only [AXIS_DATA_START_INDEX, AXIS_DATUM_LENGTH, hlen]
          simp only [AXIS_COUNT] at hi
          omega)]
    rfl
  · unfold convert_reception_to_raw_wrench
    rw [if_pos (utf8Valid_of_ascii f hascii)]
    rcases hr : readAxesLoop f AXIS_COUNT with e | ds
    · dsimp only
      intro hcontra
      have he : e = SensorError.invalidTextLength := by
        injection hcontra
      rw [he] at hr
      exact readAxesLoop_ascii_ne_length_err f hascii hlen AXIS_COUNT
        (by simp [AXIS_COUNT]) hr
    · dsimp only
      simp

/-- C4 witness: the all-hex ASCII frame `goodFrame` has every field slice
in bounds and does not fail with the invalid-field-length error. -/
theorem decoder_ascii_fields_in_bounds_witness :
    (∀ i, i < AXIS_COUNT →
      (strGet goodFrame (AXIS_DATA_START_INDEX + i * AXIS_DATUM_LENGTH)
        (1 + (i + 1) * AXIS_DATUM_LENGTH)).isSome = true) ∧
    convert_reception_to_raw_wrench goodFrame ≠
      Except.error SensorError.invalidTextLength :=
  decoder_ascii_fields_in_bounds goodFrame rfl (by decide)

/-! ## Inversion of a successful decode -/

theorem hexAccum_le (l : List Nat) (acc : Nat) (hacc : acc ≤ 65535)
    (v : Nat) (h : hexAccum l acc = some v) : v ≤ 65535 := by
  induction l generalizing acc with
  | nil =>
    unfold hexAccum at h
    cases h
    exact hacc
  | cons b rest ih =>
    unfold hexAccum at h
    rcases hb : hexDigit? b with _ | d <;> rw [hb] at h
    · exact absurd h (by simp)
    · dsimp only at h
      by_cases hle : acc * 16 + d ≤ 65535
      · rw [if_pos hle] at h
        exact ih _ hle h
      · rw [if_neg hle] at h
        exact absurd h (by simp)

theorem fromStrRadix16_le (s : List Nat) (v : Nat)
    (h : fromStrRadix16 s = some v) : v ≤ 65535 := by
  unfold fromStrRadix16 at h
  rcases s with _ | ⟨b, rest⟩
  · exact absurd h (by simp)
  · dsimp only at h
    by_cases hp : b = 43
    · rw [if_pos hp] at h
      rcases rest with _ | ⟨c, rest2⟩
      · exact absurd h (by simp)
      · exact hexAccum_le _ 0 (by omega) v h
    · rw [if_neg hp] at h
      exact hexAccum_le _ 0 (by omega) v h

theorem axisField_ok (text : List Nat) (i d : Nat)
    (h : axisField text i = Except.ok d) :
    fieldDigit text i = some d := by
  unfold axisField at h
  rcases hs : strGet text (AXIS_DATA_START_INDEX + i * AXIS_DATUM_LENGTH)
      (1 + (i + 1) * AXIS_DATUM_LENGTH) with _ | slice <;> rw [hs] at h
  · exact absurd h (by simp)
  · dsimp only at h
    rcases hf : fromStrRadix16 slice with _ | d' <;> rw [hf] at h
    · exact absurd h (by simp)
    · dsimp only at h
      have hd : d' = d := by
        injection h
      unfold strGet at hs
      by_cases hc : (decide (AXIS_DATA_START_INDEX + i * AXIS_DATUM_LENGTH ≤
            1 + (i + 1) * AXIS_DATUM_LENGTH) &&
          isCharBoundary text (AXIS_DATA_START_INDEX + i * AXIS_DATUM_LENGTH) &&
          isCharBoundary text (1 + (i + 1) * AXIS_DATUM_LENGTH)) = true
      · rw [if_pos hc] at hs
        have hslice : slice =
            (text.drop (AXIS_DATA_START_INDEX + i * AXIS_DATUM_LENGTH)).take
              (1 + (i + 1) * AXIS_DATUM_LENGTH -
                (AXIS_DATA_START_INDEX + i * AXIS_DATUM_LENGTH)) := by
          injection hs with hs'
          exact hs'.symm
        have harith1 : AXIS_DATA_START_INDEX + i * AXIS_DATUM_LENGTH =
            1 + 4 * i := by
          unfold AXIS_DATA_START_INDEX AXIS_DATUM_LENGTH
          omega
        have harith2 : 1 + (i + 1) * AXIS_DATUM_LENGTH -
            (AXIS_DATA_START_INDEX + i * AXIS_DATUM_LENGTH) = 4 := by
          unfold AXIS_DATA_START_INDEX AXIS_DATUM_LENGTH
          omega
        unfold fieldDigit
        rw [← harith1, ← harith2, ← hslice, hf, hd]
      · rw [if_neg hc] at hs
        exact absurd hs (by simp)

theorem readAxesLoop_ok (text : List Nat) (n : Nat) (ds : List Nat)
    (h : readAxesLoop text n = Except.ok ds) :
    ds.length = n ∧ ∀ i, i < n → fieldDigit text i = some (ds.getD i 0) := by
  induction n generalizing ds with
  | zero =>
    unfold readAxesLoop at h
    cases h
    exact ⟨rfl, fun i hi => absurd hi (by omega)⟩
  | succ k ih =>
    unfold readAxesLoop at h
    rcases hk : readAxesLoop text k with e | ds' <;> rw [hk] at h
    · exact absurd h (by simp)
    · rcases hax : axisField text k with e | d <;> rw [hax] at h
      · exact absurd h (by simp)
      · dsimp only at h
        have hds : ds = ds' ++ [d] := by
          injection h with h'
          exact h'.symm
        obtain ⟨hlen, hfields⟩ := ih ds' hk
        subst hds
        refine ⟨by simp [hlen], fun i hi => ?_⟩
        by_cases hik : i < k
        · rw [List.getD_append ds' [d] 0 i (by omega)]
          exact hfields i hik
        · have hieq : i = k := by omega
          subst hieq
          rw [List.getD_append_right ds' [d] 0 i (by omega), hlen]
          simp only [Nat.sub_self, List.getD_cons_zero]
          exact axisField_ok text i d hax

theorem convert_ok_inversion (f : List Nat) (w : Wrench)
    (h : convert_reception_to_raw_wrench f = Except.ok w) :
    utf8Valid f = true ∧
    ∃ ds : List Nat, ds.length = 6 ∧
      (∀ i, i < 6 → fieldDigit f i = some (ds.getD i 0)) ∧
      w = Wrench.new
        (Triplet.new ((ds.getD 0 0 : ℚ) / (249/10)) ((ds.getD 1 0 : ℚ) / (246/10))
          ((ds.getD 2 0 : ℚ) / (245/10)))
        (Triplet.new ((ds.getD 3 0 : ℚ) / (16647/10))
          ((ds.getD 4 0 : ℚ) / (16397/10)) ((ds.getD 5 0 : ℚ) / (16380/10))) := by
  unfold convert_reception_to_raw_wrench at h
  by_cases hu : utf8Valid f = true
  · rw [if_pos hu] at h
    rcases hr : readAxesLoop f AXIS_COUNT with e | ds <;> rw [hr] at h
    · exact absurd h (by simp)
    · dsimp only at h
      obtain ⟨hlen, hfields⟩ := readAxesLoop_ok f AXIS_COUNT ds hr
      refine ⟨hu, ds, by simpa [AXIS_COUNT] using hlen,
        fun i hi => hfields i (by simpa [AXIS_COUNT] using hi), ?_⟩
      have hw := (Except.ok.inj h).symm
      rw [hw]
      rfl
  · rw [if_neg hu] at h
    exact absurd h (by simp)

theorem slice_agree (f g : List Nat) (hf : f.length = 27) (hg : g.length = 27)
    (hagree : ∀ i, 1 ≤ i → i < 25 → f.getD i 0 = g.getD i 0)
    (a : Nat) (ha1 : 1 ≤ a) (ha2 : a + 4 ≤ 25) :
    (f.drop a).take 4 = (g.drop a).take 4 := by
  apply List.ext_getElem?
  intro n
  rw [List.getElem?_take, List.getElem?_take]
  by_cases hn : n < 4
  · rw [if_pos hn, if_pos hn, List.getElem?_drop, List.getElem?_drop]
    have h1 : a + n < f.length := by omega
    have h2 : a + n < g.length := by omega
    rw [List.getElem?_eq_getElem h1, List.getElem?_eq_getElem h2]
    have hag := hagree (a + n) (by omega) (by omega)
    rw [List.getD_eq_getElem?_getD, List.getD_eq_getElem?_getD] at hag
    rw [List.getElem?_eq_getElem h1, List.getElem?_eq_getElem h2] at hag
    exact congrArg some (by simpa using hag)
  · rw [if_neg hn, if_neg hn]

theorem fieldDigit_agree (f g : List Nat) (hf : f.length = 27)
    (hg : g.length = 27)
    (hagree : ∀ i, 1 ≤ i → i < 25 → f.getD i 0 = g.getD i 0)
    (i : Nat) (hi : i < 6) : fieldDigit f i = fieldDigit g i := by
  unfold fieldDigit
  rw [slice_agree f g hf hg hagree (1 + 4 * i) (by omega) (by omega)]

/-- The components of a successfully decoded wrench, written through the
independent field extractor `fieldDigit`. -/
theorem convert_ok_components (f : List Nat) (w : Wrench)
    (h : convert_reception_to_raw_wrench f = Except.ok w) :
    (∀ i, i < 6 → (fieldDigit f i).isSome = true) ∧
    w = Wrench.new
      (Triplet.new (((fieldDigit f 0).getD 0 : ℚ) / (249/10))
        (((fieldDigit f 1).getD 0 : ℚ) / (246/10))
        (((fieldDigit f 2).getD 0 : ℚ) / (245/10)))
      (Triplet.new (((fieldDigit f 3).getD 0 : ℚ) / (16647/10))
        (((fieldDigit f 4).getD 0 : ℚ) / (16397/10))
        (((fieldDigit f 5).getD 0 : ℚ) / (16380/10))) := by
  obtain ⟨hu, ds, hlen, hfields, hw⟩ := convert_ok_inversion f w h
  constructor
  · intro i hi
    rw [hfields i hi]
    rfl
  · rw [hw, hfields 0 (by omega), hfields 1 (by omega), hfields 2 (by omega),
      hfields 3 (by omega), hfields 4 (by omega), hfields 5 (by omega)]
    simp [Option.getD_some]

theorem readAxes_goodFrameAlt :
    readAxesLoop goodFrameAlt AXIS_COUNT =
      Except.ok [100, 100, 100, 200, 200, 200] := rfl

theorem convert_goodFrameAlt :
    convert_reception_to_raw_wrench goodFrameAlt = Except.ok goodWrench := by
  unfold convert_reception_to_raw_wrench
  rw [readAxes_goodFrameAlt]
  simp only [show utf8Valid goodFrameAlt = true from rfl, if_true, List.getD]
  simp only [Except.ok.injEq, goodWrench, Wrench.new, Triplet.new, Triplet.map,
    Triplet.map_entrywise, force_sensitivity, torque_sensitivity,
    List.getD, List.getElem?_cons_zero, List.getElem?_cons_succ,
    Option.getD_some, Wrench.mk.injEq, Triplet.mk.injEq]
  norm_num

/-! ## Claim theorems -/

/-! ## The calibration loop in closed form -/

theorem wrench_sub_self (w : Wrench) : w - w = Wrench.zeroed := by
  obtain ⟨⟨a, b, c⟩, ⟨d, e, g⟩⟩ := w
  simp [Wrench.sub_pairs, Triplet.sub_components, Wrench.zeroed, Triplet.from_cloned,
    Triplet.map]

theorem iterUpdate_succ_front (s : Wdf6m200) (n : Nat) :
    Wdf6m200.iterUpdate s (n + 1) =
      Wdf6m200.iterUpdate (Wdf6m200.update s).2 n := by
  induction n with
  | zero => rfl
  | succ k ih =>
    rw [show Wdf6m200.iterUpdate s (k + 1 + 1) =
        (Wdf6m200.update (Wdf6m200.iterUpdate s (k + 1))).2 from rfl, ih]
    rfl

theorem iterUpdate_readFn (s : Wdf6m200) (m : Nat) :
    (Wdf6m200.iterUpdate s m).serial_port.readFn = s.serial_port.readFn := by
  induction m with
  | zero => rfl
  | succ k ih =>
    rw [show Wdf6m200.iterUpdate s (k + 1) =
        (Wdf6m200.update (Wdf6m200.iterUpdate s k)).2 from rfl,
      (Wdf6m200.update_transport_fns _).1, ih]

theorem iterUpdate_offset (s : Wdf6m200) (m : Nat) :
    (Wdf6m200.iterUpdate s m).offset = s.offset := by
  induction m with
  | zero => rfl
  | succ k ih =>
    rw [show Wdf6m200.iterUpdate s (k + 1) =
        (Wdf6m200.update (Wdf6m200.iterUpdate s k)).2 from rfl,
      Wdf6m200.update_offset, ih]

theorem iterUpdate_fixed_raw (s : Wdf6m200) (fr : List Nat) (R : Wrench)
    (hread : ∀ k, s.serial_port.readFn k = some (RESPONSE_BYTES, fr))
    (hfr : convert_reception_to_raw_wrench fr = Except.ok R) :
    ∀ m, 1 ≤ m → (Wdf6m200.iterUpdate s m).raw_wrench = R := by
  intro m hm
  rcases m with _ | k
  · omega
  · rw [show Wdf6m200.iterUpdate s (k + 1) =
        (Wdf6m200.update (Wdf6m200.iterUpdate s k)).2 from rfl,
      Wdf6m200.update_raw,
      Wdf6m200.decodeResult_of_fixed _ fr R
        (by rw [iterUpdate_readFn s k]; exact hread _) hfr]
    rfl

theorem calibLoop_eq (n : Nat) : ∀ s : Wdf6m200,
    Wdf6m200.calibLoop s n =
      (Wdf6m200.iterUpdate s n,
        (List.range n).map
          (fun i => (Wdf6m200.iterUpdate s (i + 1)).raw_wrench)) := by
  induction n with
  | zero => intro s; rfl
  | succ k ih =>
    intro s
    have hstep : Wdf6m200.calibLoop s (k + 1) =
        ((Wdf6m200.calibLoop (Wdf6m200.update s).2 k).1,
          (Wdf6m200.update s).2.raw_wrench ::
            (Wdf6m200.calibLoop (Wdf6m200.update s).2 k).2) := rfl
    rw [hstep, ih ((Wdf6m200.update s).2), List.range_succ_eq_map,
      List.map_cons, List.map_map]
    simp only [Prod.mk.injEq]
    have htail : (List.range k).map
        (fun i =>
          (Wdf6m200.iterUpdate (Wdf6m200.update s).2 (i + 1)).raw_wrench) =
        (List.range k).map
          ((fun i => (Wdf6m200.iterUpdate s (i + 1)).raw_wrench) ∘
            Nat.succ) := by
      congr 1
      funext i
      exact (congrArg Wdf6m200.raw_wrench (iterUpdate_succ_front s (i + 1))).symm
    refine ⟨(iterUpdate_succ_front s k).symm, ?_⟩
    rw [htail]
    rfl

theorem foldl_add_replicate (R A : Wrench) (n : Nat) :
    (List.replicate n R).foldl (· + ·) A =
      Wrench.new
        (Triplet.new (A.force.x + n * R.force.x) (A.force.y + n * R.force.y)
          (A.force.z + n * R.force.z))
        (Triplet.new (A.torque.x + n * R.torque.x)
          (A.torque.y + n * R.torque.y) (A.torque.z + n * R.torque.z)) := by
  induction n generalizing A with
  | zero =>
    obtain ⟨⟨ax, ay, az⟩, ⟨bx, bq, bz⟩⟩ := A
    simp [Wrench.new, Triplet.new]
  | succ m ih =>
    rw [List.replicate_succ, List.foldl_cons, ih]
    obtain ⟨⟨ax, ay, az⟩, ⟨bx, bq, bz⟩⟩ := A
    obtain ⟨⟨rx, ry, rz⟩, ⟨tx, ty, tz⟩⟩ := R
    simp only [Wrench.add_pairs, Triplet.add_components, Wrench.new, Triplet.new,
      Wrench.mk.injEq, Triplet.mk.injEq]
    push_cast
    refine ⟨⟨?_, ?_, ?_⟩, ?_, ?_, ?_⟩ <;> ring

theorem avgWrench_replicate (R : Wrench) (n : Nat) (hn : 0 < n) :
    avgWrench (List.replicate n R) n = R := by
  unfold avgWrench
  rw [foldl_add_replicate R Wrench.zeroed n]
  have hQ : (n : ℚ) ≠ 0 := by
    exact_mod_cast Nat.pos_iff_ne_zero.mp hn
  obtain ⟨⟨rx, ry, rz⟩, ⟨tx, ty, tz⟩⟩ := R
  simp only [Wrench.new, Triplet.new, Wrench.zeroed, Triplet.from_cloned,
    Triplet.map, id_eq, Wrench.mk.injEq, Triplet.mk.injEq]
  refine ⟨⟨?_, ?_, ?_⟩, ?_, ?_, ?_⟩ <;>
    field_simp

/-- C5: `zeroed() + w == w` and `w - w == zeroed()` for every `Wrench`,
and addition/subtraction act axis-wise on the force triplet and the torque
triplet with no cross-axis or force/torque interference. -/
theorem wrench_zero_add_sub_axiswise (v w : Wrench) :
    Wrench.zeroed + w = w ∧ w - w = Wrench.zeroed ∧
    (v + w).force.x = v.force.x + w.force.x ∧
    (v + w).force.y = v.force.y + w.force.y ∧
    (v + w).force.z = v.force.z + w.force.z ∧
    (v + w).torque.x = v.torque.x + w.torque.x ∧
    (v + w).torque.y = v.torque.y + w.torque.y ∧
    (v + w).torque.z = v.torque.z + w.torque.z ∧
    (v - w).force.x = v.force.x - w.force.x ∧
    (v - w).force.y = v.force.y - w.force.y ∧
    (v - w).force.z = v.force.z - w.force.z ∧
    (v - w).torque.x = v.torque.x - w.torque.x ∧
    (v - w).torque.y = v.torque.y - w.torque.y ∧
    (v - w).torque.z = v.torque.z - w.torque.z := by
  obtain ⟨⟨fx, fy, fz⟩, ⟨tx, ty, tz⟩⟩ := v
  obtain ⟨⟨gx, gy, gz⟩, ⟨hx, hy, hz⟩⟩ := w
  simp [Wrench.add_pairs, Wrench.sub_pairs, Triplet.add_components, Triplet.sub_components,
    Wrench.zeroed, Triplet.from_cloned, Triplet.map]

/-- C9: `calibrate` with `samples == 0` hits the `assert!` precondition
failure (modelled by `none` = panic) before any measurement, for every
session state and period; it never returns an updated session. -/
theorem calibrate_zero_samples_panics (s : Wdf6m200) (period : Nat) :
    Wdf6m200.calibrate s period 0 = none := rfl

/-- C6: the decoder treats the whole 27-byte buffer as text (failing with
the encoding error when it is not valid UTF-8), parses the 4-byte slices
at byte offsets 1, 5, 9, 13, 17, 21 as base-16 unsigned integers into
[force_x, force_y, force_z, torque_x, torque_y, torque_z] order, and the
decoded values never depend on byte 0 or on bytes 25..26. -/
theorem decoder_layout_and_order :
    (∀ f, utf8Valid f = false →
      convert_reception_to_raw_wrench f = Except.error SensorError.utf8) ∧
    (∀ f w, convert_reception_to_raw_wrench f = Except.ok w →
      (∀ i, i < 6 → (fieldDigit f i).isSome = true) ∧
      w = Wrench.new
        (Triplet.new (((fieldDigit f 0).getD 0 : ℚ) / (249/10))
          (((fieldDigit f 1).getD 0 : ℚ) / (246/10))
          (((fieldDigit f 2).getD 0 : ℚ) / (245/10)))
        (Triplet.new (((fieldDigit f 3).getD 0 : ℚ) / (16647/10))
          (((fieldDigit f 4).getD 0 : ℚ) / (16397/10))
          (((fieldDigit f 5).getD 0 : ℚ) / (16380/10)))) ∧
    (∀ f g w v, f.length = 27 → g.length = 27 →
      (∀ i, i < 25 → 1 ≤ i → f.getD i 0 = g.getD i 0) →
      convert_reception_to_raw_wrench f = Except.ok w →
      convert_reception_to_raw_wrench g = Except.ok v → w = v) := by
  have h2 : ∀ f w, convert_reception_to_raw_wrench f = Except.ok w →
      (∀ i, i < 6 → (fieldDigit f i).isSome = true) ∧
      w = Wrench.new
        (Triplet.new (((fieldDigit f 0).getD 0 : ℚ) / (249/10))
          (((fieldDigit f 1).getD 0 : ℚ) / (246/10))
          (((fieldDigit f 2).getD 0 : ℚ) / (245/10)))
        (Triplet.new (((fieldDigit f 3).getD 0 : ℚ) / (16647/10))
          (((fieldDigit f 4).getD 0 : ℚ) / (16397/10))
          (((fieldDigit f 5).getD 0 : ℚ) / (16380/10))) :=
    fun f w h => convert_ok_components f w h
  refine ⟨?_, h2, ?_⟩
  · intro f hu
    unfold convert_reception_to_raw_wrench
    rw [if_neg (by simp [hu])]
  · intro f g w v hf hg hagree hcf hcg
    have hagree' : ∀ i, 1 ≤ i → i < 25 → f.getD i 0 = g.getD i 0 :=
      fun i h1 h2 => hagree i h2 h1
    rw [(h2 f w hcf).2, (h2 g v hcg).2,
      fieldDigit_agree f g hf hg hagree' 0 (by omega),
      fieldDigit_agree f g hf hg hagree' 1 (by omega),
      fieldDigit_agree f g hf hg hagree' 2 (by omega),
      fieldDigit_agree f g hf hg hagree' 3 (by omega),
      fieldDigit_agree f g hf hg hagree' 4 (by omega),
      fieldDigit_agree f g hf hg hagree' 5 (by omega)]

/-- C6 witness: a non-UTF-8 frame fails with the encoding error; the
decode of `goodFrame` is given by its six fields in order; and a frame
agreeing with `goodFrame` on bytes 1..24 but differing in the record
marker and the trailer decodes to the same wrench. -/
theorem decoder_layout_and_order_witness :
    convert_reception_to_raw_wrench nonUtf8Frame =
      Except.error SensorError.utf8 ∧
    ((∀ i, i < 6 → (fieldDigit goodFrame i).isSome = true) ∧
      goodWrench = Wrench.new
        (Triplet.new (((fieldDigit goodFrame 0).getD 0 : ℚ) / (249/10))
          (((fieldDigit goodFrame 1).getD 0 : ℚ) / (246/10))
          (((fieldDigit goodFrame 2).getD 0 : ℚ) / (245/10)))
        (Triplet.new (((fieldDigit goodFrame 3).getD 0 : ℚ) / (16647/10))
          (((fieldDigit goodFrame 4).getD 0 : ℚ) / (16397/10))
          (((fieldDigit goodFrame 5).getD 0 : ℚ) / (16380/10)))) ∧
    goodWrench = goodWrench :=
  ⟨decoder_layout_and_order.1 nonUtf8Frame rfl,
   decoder_layout_and_order.2.1 goodFrame goodWrench convert_goodFrame,
   decoder_layout_and_order.2.2 goodFrame goodFrameAlt goodWrench goodWrench
     rfl rfl (by decide) convert_goodFrame convert_goodFrameAlt⟩

/-- C7: each physical value is the axis's digital reading (cast to the
number type) divided by that axis's sensitivity constant — sensitivities
(24.9, 24.6, 24.5) and (1664.7, 1639.7, 1638.0) — elementwise in axis
order (division, not multiplication); digital readings
[100, 100, 100, 200, 200, 200] give raw values matching the documented
approximations to within 1e-4. -/
theorem scaling_divides_by_sensitivity :
    (∀ f w, convert_reception_to_raw_wrench f = Except.ok w →
      w.force.x = ((fieldDigit f 0).getD 0 : ℚ) / force_sensitivity.x ∧
      w.force.y = ((fieldDigit f 1).getD 0 : ℚ) / force_sensitivity.y ∧
      w.force.z = ((fieldDigit f 2).getD 0 : ℚ) / force_sensitivity.z ∧
      w.torque.x = ((fieldDigit f 3).getD 0 : ℚ) / torque_sensitivity.x ∧
      w.torque.y = ((fieldDigit f 4).getD 0 : ℚ) / torque_sensitivity.y ∧
      w.torque.z = ((fieldDigit f 5).getD 0 : ℚ) / torque_sensitivity.z) ∧
    force_sensitivity = Triplet.new (249/10) (246/10) (245/10) ∧
    torque_sensitivity = Triplet.new (16647/10) (16397/10) (16380/10) ∧
    convert_reception_to_raw_wrench goodFrame = Except.ok goodWrench ∧
    fieldDigit goodFrame 0 = some 100 ∧
    fieldDigit goodFrame 3 = some 200 ∧
    |goodWrench.force.x - 40161/10000| < 1/10000 ∧
    |goodWrench.force.y - 40650/10000| < 1/10000 ∧
    |goodWrench.force.z - 40816/10000| < 1/10000 ∧
    |goodWrench.torque.x - 1201/10000| < 1/10000 ∧
    |goodWrench.torque.y - 1220/10000| < 1/10000 ∧
    |goodWrench.torque.z - 1221/10000| < 1/10000 := by
  refine ⟨?_, rfl, rfl, convert_goodFrame, rfl, rfl, ?_, ?_, ?_, ?_, ?_, ?_⟩
  · intro f w h
    rw [(convert_ok_components f w h).2]
    exact ⟨rfl, rfl, rfl, rfl, rfl, rfl⟩
  all_goals
    rw [show goodWrench = Wrench.new
      (Triplet.new (1000/249) (500/123) (200/49))
      (Triplet.new (2000/16647) (2000/16397) (100/819)) from rfl]
    rw [abs_lt]
    constructor <;> norm_num [Wrench.new, Triplet.new]

/-- C7 witness: the division shape instantiated on the concrete frame
`goodFrame` and its decode `goodWrench`. -/
theorem scaling_divides_by_sensitivity_witness :
    goodWrench.force.x =
        ((fieldDigit goodFrame 0).getD 0 : ℚ) / force_sensitivity.x ∧
    goodWrench.force.y =
        ((fieldDigit goodFrame 1).getD 0 : ℚ) / force_sensitivity.y ∧
    goodWrench.force.z =
        ((fieldDigit goodFrame 2).getD 0 : ℚ) / force_sensitivity.z ∧
    goodWrench.torque.x =
        ((fieldDigit goodFrame 3).getD 0 : ℚ) / torque_sensitivity.x ∧
    goodWrench.torque.y =
        ((fieldDigit goodFrame 4).getD 0 : ℚ) / torque_sensitivity.y ∧
    goodWrench.torque.z =
        ((fieldDigit goodFrame 5).getD 0 : ℚ) / torque_sensitivity.z :=
  scaling_divides_by_sensitivity.1 goodFrame goodWrench convert_goodFrame

/-! ## Characterisation of the hexadecimal field parser -/

theorem hexDigit?_le (b d : Nat) (h : hexDigit? b = some d) : d ≤ 15 := by
  unfold hexDigit? at h
  split_ifs at h with h1 h2 h3
  · injection h with h'
    simp only [Bool.and_eq_true, decide_eq_true_eq] at h1
    omega
  · injection h with h'
    simp only [Bool.and_eq_true, decide_eq_true_eq] at h2
    omega
  · injection h with h'
    simp only [Bool.and_eq_true, decide_eq_true_eq] at h3
    omega

theorem hexAccum_isSome (l : List Nat) : ∀ acc : Nat,
    acc * 16 ^ l.length + (16 ^ l.length - 1) ≤ 65535 →
    (hexAccum l acc).isSome = l.all isHexDigit := by
  induction l with
  | nil => intro acc _; rfl
  | cons b rest ih =>
    intro acc h
    have hY : 1 ≤ 16 ^ rest.length := Nat.one_le_pow _ _ (by omega)
    have hpow : (16 : Nat) ^ (b :: rest).length = 16 * 16 ^ rest.length := by
      rw [List.length_cons, pow_succ]
      ring
    rw [hpow] at h
    unfold hexAccum
    rcases hb : hexDigit? b with _ | d
    · have hbf : isHexDigit b = false := by
        unfold isHexDigit
        rw [hb]
        rfl
      simp [hbf]
    · have hbt : isHexDigit b = true := by
        unfold isHexDigit
        rw [hb]
        rfl
      have hd := hexDigit?_le b d hb
      dsimp only
      have h16 : 16 ≤ 16 * 16 ^ rest.length := by omega
      have h1 : acc * 16 ≤ acc * (16 * 16 ^ rest.length) :=
        Nat.mul_le_mul_left _ h16
      have hcond : acc * 16 + d ≤ 65535 := by omega
      rw [if_pos hcond]
      have e1 : (acc * 16 + d) * 16 ^ rest.length =
          acc * (16 * 16 ^ rest.length) + d * 16 ^ rest.length := by ring
      have hda : d * 16 ^ rest.length ≤ 15 * 16 ^ rest.length :=
        Nat.mul_le_mul_right _ hd
      rw [ih (acc * 16 + d) (by rw [e1]; omega)]
      simp [hbt]

theorem fromStrRadix16_four (a b c d : Nat) :
    (fromStrRadix16 [a, b, c, d]).isSome = true ↔
      ((isHexDigit a = true ∧ isHexDigit b = true ∧ isHexDigit c = true ∧
          isHexDigit d = true) ∨
        (a = 43 ∧ isHexDigit b = true ∧ isHexDigit c = true ∧
          isHexDigit d = true)) := by
  rw [show fromStrRadix16 [a, b, c, d] =
      if a = 43 then hexAccum [b, c, d] 0 else hexAccum [a, b, c, d] 0
    from rfl]
  by_cases ha : a = 43
  · rw [if_pos ha]
    rw [hexAccum_isSome [b, c, d] 0 (by norm_num)]
    have ha' : isHexDigit a = false := by
      rw [ha]
      rfl
    simp [List.all, ha', ha, and_assoc]
  · rw [if_neg ha]
    rw [hexAccum_isSome [a, b, c, d] 0 (by norm_num)]
    simp [List.all, ha, and_assoc]

theorem axisField_ascii_eq (l : List Nat) (hascii : ∀ x ∈ l, x < 128)
    (hlen : l.length = 27) (i : Nat) (hi : i < 6) :
    axisField l i =
      match fieldDigit l i with
      | none => Except.error SensorError.parseInt
      | some d => Except.ok d := by
  unfold axisField
  rw [strGet_ascii_some l hascii _ _
    (by simp only [AXIS_DATA_START_INDEX, AXIS_DATUM_LENGTH]; omega)
    (by simp only [AXIS_DATA_START_INDEX, AXIS_DATUM_LENGTH, hlen]; omega)]
  unfold fieldDigit
  rw [show AXIS_DATA_START_INDEX + i * AXIS_DATUM_LENGTH = 1 + 4 * i by
      unfold AXIS_DATA_START_INDEX AXIS_DATUM_LENGTH
      omega,
    show 1 + (i + 1) * AXIS_DATUM_LENGTH - (1 + 4 * i) = 4 by
      unfold AXIS_DATUM_LENGTH
      omega]

theorem readAxesLoop_ascii_error_char (l : List Nat)
    (hascii : ∀ x ∈ l, x < 128) (hlen : l.length = 27) (n : Nat) :
    n ≤ 6 →
    (∀ e, readAxesLoop l n = Except.error e → e = SensorError.parseInt) ∧
    (readAxesLoop l n = Except.error SensorError.parseInt ↔
      ∃ i, i < n ∧ fieldDigit l i = none) := by
  induction n with
  | zero =>
    intro _
    refine ⟨fun e h => absurd h (by simp [readAxesLoop]), ?_⟩
    simp [readAxesLoop]
  | succ k ih =>
    intro hn
    obtain ⟨ihE, ihIff⟩ := ih (by omega)
    unfold readAxesLoop
    rcases hk : readAxesLoop l k with e | ds
    · have he := ihE e hk
      subst he
      dsimp only
      refine ⟨fun e' h' => by injection h' with h''; exact h''.symm, ?_⟩
      constructor
      · intro _
        obtain ⟨i, hik, hfd⟩ := ihIff.mp hk
        exact ⟨i, by omega, hfd⟩
      · intro _
        rfl
    · rw [axisField_ascii_eq l hascii hlen k (by omega)]
      rcases hfd : fieldDigit l k with _ | d
      · dsimp only
        refine ⟨fun e' h' => by injection h' with h''; exact h''.symm, ?_⟩
        constructor
        · intro _
          exact ⟨k, by omega, hfd⟩
        · intro _
          rfl
      · dsimp only
        refine ⟨fun e' h' => absurd h' (by simp), ?_⟩
        constructor
        · intro h'
          exact absurd h' (by simp)
        · rintro ⟨i, hik, hfdi⟩
          by_cases hikk : i < k
          · obtain ⟨_, hfields⟩ := readAxesLoop_ok l k ds hk
            rw [hfields i hikk] at hfdi
            exact absurd hfdi (by simp)
          · have : i = k := by omega
            subst this
            rw [hfd] at hfdi
            exact absurd hfdi (by simp)

theorem convert_ascii_parseInt_iff (f : List Nat) (hlen : f.length = 27)
    (hascii : ∀ x ∈ f, x < 128) :
    convert_reception_to_raw_wrench f = Except.error SensorError.parseInt ↔
      ∃ i, i < 6 ∧ fieldDigit f i = none := by
  obtain ⟨hE, hIff⟩ :=
    readAxesLoop_ascii_error_char f hascii hlen 6 (by omega)
  unfold convert_reception_to_raw_wrench
  rw [if_pos (utf8Valid_of_ascii f hascii)]
  rcases hr : readAxesLoop f AXIS_COUNT with e | ds
  · have he := hE e (by rw [← hr]; rfl)
    subst he
    dsimp only
    constructor
    · intro _
      exact hIff.mp (by rw [← hr]; rfl)
    · intro _
      rfl
  · dsimp only
    constructor
    · intro h'
      exact absurd h' (by simp)
    · rintro ⟨i, hik, hfdi⟩
      obtain ⟨_, hfields⟩ :=
        readAxesLoop_ok f 6 ds (by rw [show (6 : Nat) = AXIS_COUNT from rfl, hr])
      rw [hfields i hik] at hfdi
      exact absurd hfdi (by simp)

theorem readAxes_plusFrame :
    readAxesLoop plusFrame AXIS_COUNT =
      Except.ok [291, 0, 0, 0, 0, 0] := rfl

theorem convert_plusFrame :
    convert_reception_to_raw_wrench plusFrame = Except.ok plusWrench := by
  unfold convert_reception_to_raw_wrench
  rw [readAxes_plusFrame]
  simp only [show utf8Valid plusFrame = true from rfl, if_true, List.getD]
  simp only [Except.ok.injEq, plusWrench, Wrench.new, Triplet.new, Triplet.map,
    Triplet.map_entrywise, force_sensitivity, torque_sensitivity,
    List.getD, List.getElem?_cons_zero, List.getElem?_cons_succ,
    Option.getD_some, Wrench.mk.injEq, Triplet.mk.injEq]
  norm_num

/-- C8 counterexample: `plusFrame` is a 27-byte valid-text frame whose
field slice 1..5 is `"+123"`, containing the character `'+'` which is not
a hexadecimal digit; yet decoding succeeds and produces a wrench, because
`u16::from_str_radix` accepts one leading `'+'`. -/
theorem plus_sign_field_decodes :
    plusFrame.length = RESPONSE_BYTES ∧ utf8Valid plusFrame = true ∧
    (plusFrame.drop 1).take 4 = [43, 49, 50, 51] ∧
    isHexDigit 43 = false ∧
    convert_reception_to_raw_wrench plusFrame = Except.ok plusWrench :=
  ⟨rfl, rfl, rfl, rfl, convert_plusFrame⟩

/-- C8 (amended): a 4-character field parses exactly when it is four hex
digits, or one leading `'+'` followed by three hex digits; on a 27-byte
ASCII frame, decoding fails with the invalid-digits error exactly when
some field slice fails to parse — in particular a field like `"GGGG"`
makes decoding fail with the invalid-digits error. -/
theorem hex_field_parse_characterisation :
    (∀ a b c d : Nat, (fromStrRadix16 [a, b, c, d]).isSome = true ↔
      ((isHexDigit a = true ∧ isHexDigit b = true ∧ isHexDigit c = true ∧
          isHexDigit d = true) ∨
        (a = 43 ∧ isHexDigit b = true ∧ isHexDigit c = true ∧
          isHexDigit d = true))) ∧
    (∀ f, f.length = 27 → (∀ x ∈ f, x < 128) →
      (convert_reception_to_raw_wrench f = Except.error SensorError.parseInt ↔
        ∃ i, i < 6 ∧ fieldDigit f i = none)) :=
  ⟨fromStrRadix16_four, convert_ascii_parseInt_iff⟩

/-- C8 witness: the frame whose first field is `"GGGG"` decodes to the
invalid-digits error. -/
theorem hex_field_parse_characterisation_witness :
    convert_reception_to_raw_wrench gFrame =
      Except.error SensorError.parseInt :=
  (hex_field_parse_characterisation.2 gFrame rfl (by decide)).mpr
    ⟨0, by omega, rfl⟩

/-- C10: a successfully decoded wrench has well-defined, nonnegative and
bounded (finite) components: digital readings are unsigned 16-bit values
(at most 65535), every sensitivity constant is positive — so the
elementwise division never divides by zero — and each component lies in
`[0, 65535 / sensitivity]`. -/
theorem decoded_wrench_components_bounded (f : List Nat) (w : Wrench)
    (h : convert_reception_to_raw_wrench f = Except.ok w) :
    (0 < force_sensitivity.x ∧ 0 < force_sensitivity.y ∧
      0 < force_sensitivity.z ∧ 0 < torque_sensitivity.x ∧
      0 < torque_sensitivity.y ∧ 0 < torque_sensitivity.z) ∧
    (∀ i, i < 6 → (fieldDigit f i).getD 0 ≤ 65535) ∧
    (0 ≤ w.force.x ∧ w.force.x ≤ 65535 / force_sensitivity.x) ∧
    (0 ≤ w.force.y ∧ w.force.y ≤ 65535 / force_sensitivity.y) ∧
    (0 ≤ w.force.z ∧ w.force.z ≤ 65535 / force_sensitivity.z) ∧
    (0 ≤ w.torque.x ∧ w.torque.x ≤ 65535 / torque_sensitivity.x) ∧
    (0 ≤ w.torque.y ∧ w.torque.y ≤ 65535 / torque_sensitivity.y) ∧
    (0 ≤ w.torque.z ∧ w.torque.z ≤ 65535 / torque_sensitivity.z) := by
  obtain ⟨hu, ds, hlen, hfields, hw⟩ := convert_ok_inversion f w h
  have hb : ∀ i, i < 6 → ds.getD i 0 ≤ 65535 := fun i hi =>
    fromStrRadix16_le _ _ (hfields i hi)
  refine ⟨by norm_num [force_sensitivity, torque_sensitivity, Triplet.new],
    fun i hi => by rw [hfields i hi]; exact hb i hi, ?_, ?_, ?_, ?_, ?_, ?_⟩ <;>
    rw [hw] <;>
    refine ⟨div_nonneg (Nat.cast_nonneg _) (by norm_num), ?_⟩
  · exact (div_le_div_iff_of_pos_right (by norm_num)).mpr
      (by exact_mod_cast hb 0 (by omega))
  · exact (div_le_div_iff_of_pos_right (by norm_num)).mpr
      (by exact_mod_cast hb 1 (by omega))
  · exact (div_le_div_iff_of_pos_right (by norm_num)).mpr
      (by exact_mod_cast hb 2 (by omega))
  · exact (div_le_div_iff_of_pos_right (by norm_num)).mpr
      (by exact_mod_cast hb 3 (by omega))
  · exact (div_le_div_iff_of_pos_right (by norm_num)).mpr
      (by exact_mod_cast hb 4 (by omega))
  · exact (div_le_div_iff_of_pos_right (by norm_num)).mpr
      (by exact_mod_cast hb 5 (by omega))

/-- C10 witness: the bounds instantiated on the concrete decode of
`goodFrame`. -/
theorem decoded_wrench_components_bounded_witness :
    (0 < force_sensitivity.x ∧ 0 < force_sensitivity.y ∧
      0 < force_sensitivity.z ∧ 0 < torque_sensitivity.x ∧
      0 < torque_sensitivity.y ∧ 0 < torque_sensitivity.z) ∧
    (∀ i, i < 6 → (fieldDigit goodFrame i).getD 0 ≤ 65535) ∧
    (0 ≤ goodWrench.force.x ∧
      goodWrench.force.x ≤ 65535 / force_sensitivity.x) ∧
    (0 ≤ goodWrench.force.y ∧
      goodWrench.force.y ≤ 65535 / force_sensitivity.y) ∧
    (0 ≤ goodWrench.force.z ∧
      goodWrench.force.z ≤ 65535 / force_sensitivity.z) ∧
    (0 ≤ goodWrench.torque.x ∧
      goodWrench.torque.x ≤ 65535 / torque_sensitivity.x) ∧
    (0 ≤ goodWrench.torque.y ∧
      goodWrench.torque.y ≤ 65535 / torque_sensitivity.y) ∧
    (0 ≤ goodWrench.torque.z ∧
      goodWrench.torque.z ≤ 65535 / torque_sensitivity.z) :=
  decoded_wrench_components_bounded goodFrame goodWrench convert_goodFrame

/-- The result of `calibrate` in closed form: the session after `n`
iterated updates, with the offset replaced by the average of the
recorded raw wrenches. -/
theorem calibrate_core (s : Wdf6m200) (period n : Nat) (hn : 0 < n) :
    Wdf6m200.calibrate s period n = some
      { Wdf6m200.iterUpdate s n with
          offset := avgWrench
            ((List.range n).map
              (fun i => (Wdf6m200.iterUpdate s (i + 1)).raw_wrench)) n } := by
  unfold Wdf6m200.calibrate
  rw [if_pos hn, calibLoop_eq n s]
  dsimp only
  unfold avgWrench
  rw [List.length_map, List.length_range]

/-- C3: for every sample count > 0, `calibrate` completes all iterations
and never propagates an `update()` error (it always returns, modelled by
`some`): each iteration runs `update`, ignores its result, and records
the session's current `raw_wrench` (stale if that update failed); the new
offset is the recorded wrenches summed axis-wise from `zeroed()` and
divided axis-wise by the sample count, replacing any prior offset. -/
theorem calibrate_loop_spec (s : Wdf6m200) (period n : Nat) (hn : 0 < n) :
    ∃ s', Wdf6m200.calibrate s period n = some s' ∧
      s'.offset = avgWrench
        ((List.range n).map
          (fun i => (Wdf6m200.iterUpdate s (i + 1)).raw_wrench)) n ∧
      s'.raw_wrench = (Wdf6m200.iterUpdate s n).raw_wrench ∧
      s'.serial_port = (Wdf6m200.iterUpdate s n).serial_port :=
  ⟨_, calibrate_core s period n hn, rfl, rfl, rfl⟩

/-- C3 witness: concrete calibration with two samples on a session whose
transport always delivers `goodFrame`. -/
theorem calibrate_loop_spec_witness :
    ∃ s', Wdf6m200.calibrate sensorGood 0 2 = some s' ∧
      s'.offset = avgWrench
        ((List.range 2).map
          (fun i => (Wdf6m200.iterUpdate sensorGood (i + 1)).raw_wrench)) 2 ∧
      s'.raw_wrench = (Wdf6m200.iterUpdate sensorGood 2).raw_wrench ∧
      s'.serial_port = (Wdf6m200.iterUpdate sensorGood 2).serial_port :=
  calibrate_loop_spec sensorGood 0 2 (by omega)

/-- C2: with a transport that always delivers a full frame decoding to
the fixed reading `R` (so every `update()` during calibration leaves
`raw_wrench = R`), `calibrate(period, N)` with `N > 0` sets
`offset = R` exactly — the sum of the `N` identical recorded wrenches
divided axis-wise by `N` — and a subsequent `update()` again sets
`raw_wrench` to `R`, making `last_measurement()` return exactly
`zeroed()`. (Exactness is in the exact-rational model of `f64`.) -/
theorem calibrate_fixed_reading_zeroes (s : Wdf6m200) (R : Wrench)
    (fr : List Nat) (period n : Nat) (hn : 0 < n)
    (hread : ∀ k, s.serial_port.readFn k = some (RESPONSE_BYTES, fr))
    (hfr : convert_reception_to_raw_wrench fr = Except.ok R) :
    ∃ s', Wdf6m200.calibrate s period n = some s' ∧ s'.offset = R ∧
      (Wdf6m200.update s').2.raw_wrench = R ∧
      Wdf6m200.last_measurement (Wdf6m200.update s').2 = Wrench.zeroed := by
  have hcore := calibrate_core s period n hn
  have hmap : (List.range n).map
      (fun i => (Wdf6m200.iterUpdate s (i + 1)).raw_wrench) =
      List.replicate n R := by
    apply List.eq_replicate_iff.mpr
    refine ⟨by simp, ?_⟩
    intro b hb
    simp only [List.mem_map, List.mem_range] at hb
    obtain ⟨i, hi, hrawi⟩ := hb
    rw [← hrawi]
    exact iterUpdate_fixed_raw s fr R hread hfr (i + 1) (by omega)
  rw [hmap, avgWrench_replicate R n hn] at hcore
  have hdec : ∀ ofs : Wrench,
      Wdf6m200.decodeResult
        { Wdf6m200.iterUpdate s n with offset := ofs } = some R := by
    intro ofs
    apply Wdf6m200.decodeResult_of_fixed _ fr R _ hfr
    have h1 : ({ Wdf6m200.iterUpdate s n with offset := ofs } :
        Wdf6m200).serial_port.readFn = s.serial_port.readFn :=
      iterUpdate_readFn s n
    rw [h1]
    exact hread _
  refine ⟨_, hcore, rfl, ?_, ?_⟩
  · rw [Wdf6m200.update_raw, hdec R]
    rfl
  · unfold Wdf6m200.last_measurement
    rw [Wdf6m200.update_offset, Wdf6m200.update_raw, hdec R]
    simp only [Option.getD_some]
    exact wrench_sub_self R

/-- C2 witness: calibrating three times over a transport that always
delivers `goodFrame` sets the offset to `goodWrench` exactly, and the
next measurement is exactly zero. -/
theorem calibrate_fixed_reading_zeroes_witness :
    ∃ s', Wdf6m200.calibrate sensorGood 0 3 = some s' ∧
      s'.offset = goodWrench ∧
      (Wdf6m200.update s').2.raw_wrench = goodWrench ∧
      Wdf6m200.last_measurement (Wdf6m200.update s').2 = Wrench.zeroed :=
  calibrate_fixed_reading_zeroes sensorGood goodWrench goodFrame 0 3
    (by omega) (fun k => rfl) convert_goodFrame

/-- C1 counterexample: a session whose transport delivers a valid frame
but fails the poll-command write: `update()` returns the write error, yet
`raw_wrench` HAS changed (it already holds the freshly decoded wrench). -/
theorem update_write_error_mutates_raw_wrench :
    (Wdf6m200.update sensorWriteFail).1 =
      Except.error (SensorError.write 1 0) ∧
    (Wdf6m200.update sensorWriteFail).2.raw_wrench ≠
      sensorWriteFail.raw_wrench := by
  constructor
  · rfl
  · have hd : Wdf6m200.decodeResult sensorWriteFail = some goodWrench :=
      Wdf6m200.decodeResult_of_fixed _ goodFrame goodWrench rfl convert_goodFrame
    rw [Wdf6m200.update_raw sensorWriteFail, hd]
    simp only [Option.getD_some]
    show goodWrench ≠ sensorWriteFail.raw_wrench
    simp only [goodWrench, sensorWriteFail, Wrench.zeroed, Wrench.new,
      Triplet.new, Triplet.from_cloned, Triplet.map, ne_eq, Wrench.mk.injEq,
      Triplet.mk.injEq, id_eq, not_and]
    norm_num

/-- C1 (amended): after `update()`, `raw_wrench` equals the freshly
decoded wrench when the read and decode both succeeded (even if sending
the next poll command then failed), and is unchanged otherwise; in
particular every read or decode failure returns an error with
`raw_wrench` untouched, and `raw_wrench` is only ever replaced by a fully
successful decode. -/
theorem update_mutation_policy (s : Wdf6m200) :
    (Wdf6m200.update s).2.raw_wrench =
      (Wdf6m200.decodeResult s).getD s.raw_wrench ∧
    (Wdf6m200.decodeResult s = none →
      ∃ e, (Wdf6m200.update s).1 = Except.error e ∧
        (Wdf6m200.update s).2.raw_wrench = s.raw_wrench) :=
  ⟨Wdf6m200.update_raw s, Wdf6m200.update_error_of_decode_none s⟩

/-- C1 witness: on a session whose read always fails with an I/O error,
`update()` returns an error and `raw_wrench` is unchanged. -/
theorem update_mutation_policy_witness :
    (Wdf6m200.update sensorReadFail).2.raw_wrench =
      (Wdf6m200.decodeResult sensorReadFail).getD sensorReadFail.raw_wrench ∧
    ∃ e, (Wdf6m200.update sensorReadFail).1 = Except.error e ∧
      (Wdf6m200.update sensorReadFail).2.raw_wrench =
        sensorReadFail.raw_wrench :=
  ⟨(update_mutation_policy sensorReadFail).1,
   (update_mutation_policy sensorReadFail).2 rfl⟩

end WacohFt
